import Mathlib

/-
Shallow embedding of the epoll_api repository (Rust) for checking its
natural-language specification.

Conventions of the embedding:
- Rust usize is modelled as Nat (target x86_64, so usize::MAX = 2^64 - 1);
  libc::c_int is modelled as Int restricted to [-2^31, 2^31 - 1].
- RawFd is modelled as Int.
- The HashMap<RawFd, Data<T>> mirror is modelled as an association list
  with the usual lookup; HashMap::remove is removal of the entries with
  the given key (a HashMap holds at most one entry per key).
- Kernel calls (epoll_ctl, epoll_wait, close) are external effects: each
  operation takes the kernel outcome as an oracle argument (kOk), and
  returns, besides its result and the updated table, the list of kernel
  control calls it issued, so that statements about "no kernel call" and
  about the payload of the issued call are expressible.
- Data<T> (the user token) is an abstract type parameter.
-/

namespace EpollApi

/-- x86_64 usize maximum, used by the bounded config types. -/
def USIZE_MAX : Nat := 2 ^ 64 - 1

/-- libc c_int maximum. -/
def C_INT_MAX : Int := 2147483647

namespace MaxEvents

/-- MaxEvents::MIN.inner (src/max_events.rs). -/
def MIN : Nat := 1

/-- MaxEvents::MAX.inner = libc::c_int::MAX as usize. -/
def MAX : Nat := 2147483647

/-- MaxEvents::DEFAULT.inner. -/
def DEFAULT : Nat := 64

/-- MaxEvents::in_range (src/max_events.rs). -/
def in_range (n : Nat) : Bool := decide (MIN ≤ n) && decide (n ≤ MAX)

/-- MaxEvents::new (src/max_events.rs): Ok on in-range input, Err(n) otherwise. -/
def new (n : Nat) : Except Nat Nat :=
  if in_range n then Except.ok n else Except.error n

/-- From<usize> for MaxEvents (src/max_events.rs). -/
def fromUsize (n : Nat) : Nat :=
  if n < MIN then DEFAULT else if n > MAX then MAX else n

end MaxEvents

namespace TimeOut

/-- TimeOut::INFINITE.inner = -1, the minimum of the type. -/
def INFINITE : Int := -1

/-- TimeOut::MAX.inner = libc::c_int::MAX. -/
def MAX : Int := C_INT_MAX

/-- TimeOut::DEFAULT = TimeOut::INFINITE. -/
def DEFAULT : Int := INFINITE

/-- TimeOut::in_range (src/timeout.rs). -/
def in_range (n : Int) : Bool := decide (INFINITE ≤ n) && decide (n ≤ MAX)

/-- TimeOut::new (src/timeout.rs). -/
def new (n : Int) : Except Int Int :=
  if in_range n then Except.ok n else Except.error n

/-- From<libc::c_int> for TimeOut (src/timeout.rs): inputs below -1 clamp
to INFINITE; there is no upper branch because a c_int cannot exceed MAX. -/
def fromInt (n : Int) : Int :=
  if n < INFINITE then INFINITE else n

end TimeOut

namespace ReadSize

/-- ReadSize::MIN.inner (src/utils/read_size.rs). -/
def MIN : Nat := 1

/-- ReadSize::MAX.inner = usize::MAX. -/
def MAX : Nat := USIZE_MAX

/-- ReadSize::DEFAULT.inner. -/
def DEFAULT : Nat := 4096

/-- ReadSize::in_range (src/utils/read_size.rs). -/
def in_range (n : Nat) : Bool := decide (MIN ≤ n) && decide (n ≤ MAX)

/-- ReadSize::new (src/utils/read_size.rs). -/
def new (n : Nat) : Except Nat Nat :=
  if in_range n then Except.ok n else Except.error n

/-- From<usize> for ReadSize (src/utils/read_size.rs). -/
def fromUsize (n : Nat) : Nat :=
  if n < MIN then DEFAULT else if n > MAX then MAX else n

end ReadSize

/-- The error kinds the library returns (subset of io::ErrorKind used by
the source, with osError standing for io::Error::last_os_error()). -/
inductive ErrKind where
  | alreadyExists
  | notFound
  | wouldBlock
  | connectionAborted
  | osError
  | otherKind
deriving DecidableEq, Repr

/-- Event<T> (src/lib.rs): interest/readiness flags paired with a token. -/
structure Event (τ : Type) where
  flags : Nat
  data : τ
deriving DecidableEq, Repr

/-- The registration table Api<T> (src/lib.rs): epoll fd plus the mirror
map from descriptor to token. -/
structure Api (τ : Type) where
  fd : Int
  datas : List (Int × τ)
deriving DecidableEq, Repr

/-- EPoll<T> (src/lib.rs): the Api plus the reusable wait buffer, of which
only the capacity is relevant to the embedded operations. -/
structure EPoll (τ : Type) where
  api : Api τ
  bufferCap : Nat
deriving DecidableEq, Repr

/-- HashMap lookup on the association-list model. -/
def lookupFd {τ : Type} (l : List (Int × τ)) (fd : Int) : Option τ :=
  match l with
  | [] => none
  | (k, v) :: rest => if k = fd then some v else lookupFd rest fd

/-- HashMap entry removal on the association-list model (a HashMap holds
at most one entry per key, so removing every entry with the key models
Entry::Occupied::remove). -/
def eraseFd {τ : Type} (l : List (Int × τ)) (fd : Int) : List (Int × τ) :=
  match l with
  | [] => []
  | (k, v) :: rest => if k = fd then eraseFd rest fd else (k, v) :: eraseFd rest fd

/-- epoll_ctl operation selector (ControlOptions in the source). -/
inductive CtlOp where
  | ctlAdd
  | ctlMod
  | ctlDel
deriving DecidableEq, Repr

/-- One issued epoll_ctl call: operation, target descriptor, and the
event payload passed to the kernel (none for EPOLL_CTL_DEL, which passes
a null event pointer). -/
structure KCall (τ : Type) where
  op : CtlOp
  fd : Int
  flags : Option Nat
  data : Option τ
deriving DecidableEq, Repr

/-- Api::add (src/lib.rs lines 445-463): reject when the mirror already
holds the descriptor; otherwise issue EPOLL_CTL_ADD and insert into the
mirror only when the kernel call succeeded. Returns (result, table,
issued kernel calls). -/
def Api.add {τ : Type} (a : Api τ) (fd : Int) (ev : Event τ) (kOk : Bool) :
    Except ErrKind τ × Api τ × List (KCall τ) :=
  match lookupFd a.datas fd with
  | some _ => (Except.error ErrKind.alreadyExists, a, [])
  | none =>
    let call : KCall τ := ⟨CtlOp.ctlAdd, fd, some ev.flags, some ev.data⟩
    if kOk then
      (Except.ok ev.data, { a with datas := (fd, ev.data) :: a.datas }, [call])
    else
      (Except.error ErrKind.osError, a, [call])

/-- Api::mod_flags (src/lib.rs lines 465-487): reject when the descriptor
is absent; otherwise issue EPOLL_CTL_MOD carrying the currently stored
token and the new flags. The mirror is not modified in either case. -/
def Api.modFlags {τ : Type} (a : Api τ) (fd : Int) (flags : Nat) (kOk : Bool) :
    Except ErrKind Unit × Api τ × List (KCall τ) :=
  match lookupFd a.datas fd with
  | some d =>
    let call : KCall τ := ⟨CtlOp.ctlMod, fd, some flags, some d⟩
    if kOk then (Except.ok (), a, [call]) else (Except.error ErrKind.osError, a, [call])
  | none => (Except.error ErrKind.notFound, a, [])

/-- Api::get_data_mut (src/lib.rs lines 493-498): pure mirror lookup. -/
def Api.getDataMut {τ : Type} (a : Api τ) (fd : Int) : Option τ :=
  lookupFd a.datas fd

/-- Api::get_datas (src/lib.rs): the whole mirror. -/
def Api.getDatas {τ : Type} (a : Api τ) : List (Int × τ) :=
  a.datas

/-- EPoll::del (src/lib.rs lines 575-592): reject when the descriptor is
absent; otherwise issue EPOLL_CTL_DEL (null event) and remove the entry
from the mirror only when the kernel call succeeded, returning the
removed token. -/
def EPoll.del {τ : Type} (e : EPoll τ) (fd : Int) (kOk : Bool) :
    Except ErrKind τ × EPoll τ × List (KCall τ) :=
  match lookupFd e.api.datas fd with
  | some d =>
    let call : KCall τ := ⟨CtlOp.ctlDel, fd, none, none⟩
    if kOk then
      (Except.ok d, { e with api := { e.api with datas := eraseFd e.api.datas fd } }, [call])
    else
      (Except.error ErrKind.osError, e, [call])
  | none => (Except.error ErrKind.notFound, e, [])

/-- EPoll::close (src/lib.rs lines 600-608): close the epoll fd and
return the close result paired with the whole mirror, unconditionally. -/
def EPoll.close {τ : Type} (e : EPoll τ) (kOk : Bool) :
    Except ErrKind Unit × List (Int × τ) :=
  ((if kOk then Except.ok () else Except.error ErrKind.osError), e.api.datas)

/-- The kernel-side registration-set effect of one successful epoll_ctl
call: ADD registers the descriptor, MOD leaves the set unchanged, DEL
unregisters it. -/
def kernelStep {τ : Type} (regs : List Int) (c : KCall τ) : List Int :=
  match c.op with
  | CtlOp.ctlAdd => c.fd :: regs
  | CtlOp.ctlMod => regs
  | CtlOp.ctlDel => regs.filter (fun x => decide (x ≠ c.fd))

/-- Kernel-side effect of a trace of calls under one oracle outcome: a
failed call leaves the kernel registration set unchanged. -/
def kernelRun {τ : Type} (regs : List Int) (calls : List (KCall τ)) (kOk : Bool) : List Int :=
  if kOk then calls.foldl kernelStep regs else regs

/-- epoll_wait syscall model (pending = the ready events the kernel has
for this epoll instance): it writes at most maxevents records into the
buffer and returns how many it wrote. -/
def epollWaitSys {τ : Type} (pending : List (Event τ)) (maxevents : Nat) :
    Nat × List (Event τ) :=
  (min pending.length maxevents, pending.take maxevents)

/-- EPoll::wait (src/lib.rs lines 616-645): on syscall failure return an OS
error; on success trust the returned count, set the buffer length to it
and hand out the first count records the kernel wrote. -/
def EPoll.wait {τ : Type} (e : EPoll τ) (pending : List (Event τ)) (sysFail : Bool) :
    Except ErrKind (List (Event τ)) :=
  if sysFail then Except.error ErrKind.osError
  else
    let res := epollWaitSys pending e.bufferCap
    Except.ok (res.2.take res.1)

/-- A Vec<u8>: contents plus allocated capacity. -/
structure VecU8 where
  data : List Nat
  cap : Nat
deriving DecidableEq, Repr

/-- Vec::reserve(additional): no-op when spare capacity already covers
additional, otherwise grow; the growth amount follows the standard
amortized policy for 1-byte elements (new capacity = max of twice the
old capacity, length + additional, and the minimal non-zero capacity 8). -/
def vecReserve (v : VecU8) (additional : Nat) : VecU8 :=
  if v.cap - v.data.length < additional then
    { v with cap := max (max (2 * v.cap) (v.data.length + additional)) 8 }
  else v

/-- The capacity-adjustment step at the top of each loop iteration of
read_until_wouldblock in src/utils/mod.rs (lines 36-42): available is
the TOTAL capacity, and reserve is called only when that total is below
read_size. -/
def growStep (v : VecU8) (read_size : Nat) : VecU8 :=
  let available := v.cap
  if available < read_size then vecReserve v (read_size - available) else v

/-- The same step in the older src/utils.rs (lines 22-25): available is
the spare capacity (capacity minus length). -/
def growStepSpare (v : VecU8) (read_size : Nat) : VecU8 :=
  let available := v.cap - v.data.length
  if available < read_size then vecReserve v (read_size - available) else v

/-- One outcome of reader.read: Ok with the bytes written into the
buffer (the returned count is their number), or Err of some kind. -/
inductive ReadResult where
  | ok (bytes : List Nat)
  | err (e : ErrKind)
deriving DecidableEq, Repr

/-- utils::State (src/utils/mod.rs lines 13-17). -/
inductive State where
  | WouldBlock (n : Nat)
  | EndOfFile (n : Nat)
  | Error (e : ErrKind)
deriving DecidableEq, Repr

/-- read_until_wouldblock (src/utils/mod.rs lines 21-69), with the
reader modelled as the list of outcomes its successive read calls
produce. Each iteration adjusts capacity (growStep), performs one read,
and either loops accumulating the bytes or breaks with a terminal
State. When the outcome list is exhausted with no terminal outcome the
loop would keep reading, which the embedding reports as none. -/
def readUntilWouldblock (reads : List ReadResult) (output : VecU8)
    (read_size : Nat) (total : Nat) : Option (State × VecU8) :=
  match reads with
  | [] => none
  | r :: rest =>
    let out1 := growStep output read_size
    match r with
    | ReadResult.ok bytes =>
      if bytes.length = 0 then some (State.EndOfFile total, out1)
      else
        readUntilWouldblock rest { out1 with data := out1.data ++ bytes }
          read_size (total + bytes.length)
    | ReadResult.err e =>
      if e = ErrKind.wouldBlock then some (State.WouldBlock total, out1)
      else some (State.Error e, out1)

/-- The bytes a run of read_until_wouldblock appends: the concatenation
of the Ok bytes up to (not including) the first terminal outcome (a
zero-byte read or an error). -/
def okBytes : List ReadResult → List Nat
  | [] => []
  | ReadResult.ok bytes :: rest =>
    if bytes.length = 0 then [] else bytes ++ okBytes rest
  | ReadResult.err _ :: _ => []

/- Helper lemmas -/

theorem lookupFd_eraseFd {τ : Type} (l : List (Int × τ)) (fd x : Int) :
    lookupFd (eraseFd l fd) x = if x = fd then none else lookupFd l x := by
  induction l with
  | nil => simp [eraseFd, lookupFd]
  | cons p rest ih =>
    obtain ⟨k, v⟩ := p
    by_cases h1 : k = fd <;> by_cases h2 : x = fd <;> by_cases h3 : k = x <;>
      simp [eraseFd, lookupFd, h1, h2, h3, ih] <;> simp_all

theorem growStep_data (v : VecU8) (rs : Nat) : (growStep v rs).data = v.data := by
  simp only [growStep, vecReserve]
  split
  · split <;> rfl
  · rfl

/-- Run-level specification of the drain loop, generalized over the
running total: the output extends the input by exactly the bytes read,
and a terminal count reports the initial total plus those bytes. -/
theorem readUntil_run_spec :
    ∀ (reads : List ReadResult) (out : VecU8) (rs total : Nat)
      (st : State) (out2 : VecU8),
    readUntilWouldblock reads out rs total = some (st, out2) →
    out2.data = out.data ++ okBytes reads ∧
    (∀ n, st = State.EndOfFile n → n = total + (okBytes reads).length) ∧
    (∀ n, st = State.WouldBlock n → n = total + (okBytes reads).length) ∧
    (∀ e, st = State.Error e → e ≠ ErrKind.wouldBlock) := by
  intro reads
  induction reads with
  | nil =>
    intro out rs total st out2 h
    simp [readUntilWouldblock] at h
  | cons r rest ih =>
    intro out rs total st out2 h
    cases r with
    | ok bytes =>
      by_cases hb : bytes.length = 0
      · simp only [readUntilWouldblock] at h
        rw [if_pos hb] at h
        injection h with h
        injection h with hst hout
        subst hst
        subst hout
        refine ⟨?_, ?_, ?_, ?_⟩
        · rw [growStep_data]
          simp [okBytes, hb]
        · intro n hn
          cases hn
          simp [okBytes, hb]
        · intro n hn
          cases hn
        · intro e he
          cases he
      · simp only [readUntilWouldblock, hb, if_neg hb] at h
        have spec := ih _ rs (total + bytes.length) st out2 h
        have hdata : (growStep out rs).data = out.data := growStep_data out rs
        have hok : okBytes (ReadResult.ok bytes :: rest) = bytes ++ okBytes rest := by
          simp [okBytes, hb]
        refine ⟨?_, ?_, ?_, spec.2.2.2⟩
        · rw [spec.1, hdata, hok, List.append_assoc]
        · intro n hn
          have := spec.2.1 n hn
          rw [hok]
          simp only [List.length_append] at this ⊢
          omega
        · intro n hn
          have := spec.2.2.1 n hn
          rw [hok]
          simp only [List.length_append] at this ⊢
          omega
    | err e =>
      by_cases he : e = ErrKind.wouldBlock
      · subst he
        simp only [readUntilWouldblock] at h
        rw [if_pos trivial] at h
        injection h with h
        injection h with hst hout
        subst hst
        subst hout
        refine ⟨?_, ?_, ?_, ?_⟩
        · rw [growStep_data]
          simp [okBytes]
        · intro n hn
          cases hn
        · intro n hn
          cases hn
          simp [okBytes]
        · intro e2 he2
          cases he2
      · simp only [readUntilWouldblock] at h
        rw [if_neg he] at h
        injection h with h
        injection h with hst hout
        subst hst
        subst hout
        refine ⟨?_, ?_, ?_, ?_⟩
        · rw [growStep_data]
          simp [okBytes]
        · intro n hn
          cases hn
        · intro n hn
          cases hn
        · intro e2 he2
          cases he2
          exact he

theorem growStep_no_grow (v : VecU8) (rs : Nat) (h : ¬ v.cap < rs) :
    growStep v rs = v := by
  simp only [growStep]
  rw [if_neg h]

theorem growStepSpare_cap_of_full (v : VecU8) (rs : Nat)
    (h : v.cap = v.data.length) (hrs : 0 < rs) :
    (growStepSpare v rs).cap = max (max (2 * v.cap) (v.data.length + rs)) 8 := by
  have h0 : v.cap - v.data.length = 0 := by omega
  simp only [growStepSpare, vecReserve]
  rw [h0, if_pos hrs, Nat.sub_zero, if_pos hrs]

/- Claim theorems -/

/-- C6: for each bounded-config type (MaxEvents, TimeOut, ReadSize) the
lenient from conversion never fails (the result is always in range): it
returns the type's default when the input is below the valid range, MAX
when it is above the range, and the exact input when the input is in
range. For TimeOut the above-range case cannot arise (a c_int never
exceeds MAX) and the default equals the minimum INFINITE. -/
theorem c6_bounded_from_clamps :
    (∀ n : Nat,
      (n < MaxEvents.MIN → MaxEvents.fromUsize n = MaxEvents.DEFAULT) ∧
      (n > MaxEvents.MAX → MaxEvents.fromUsize n = MaxEvents.MAX) ∧
      (MaxEvents.MIN ≤ n → n ≤ MaxEvents.MAX → MaxEvents.fromUsize n = n) ∧
      MaxEvents.in_range (MaxEvents.fromUsize n) = true) ∧
    (∀ n : Nat,
      (n < ReadSize.MIN → ReadSize.fromUsize n = ReadSize.DEFAULT) ∧
      (n > ReadSize.MAX → ReadSize.fromUsize n = ReadSize.MAX) ∧
      (ReadSize.MIN ≤ n → n ≤ ReadSize.MAX → ReadSize.fromUsize n = n) ∧
      ReadSize.in_range (ReadSize.fromUsize n) = true) ∧
    (∀ m : Int, m ≤ C_INT_MAX →
      (m < TimeOut.INFINITE → TimeOut.fromInt m = TimeOut.DEFAULT) ∧
      (TimeOut.INFINITE ≤ m → TimeOut.fromInt m = m) ∧
      TimeOut.in_range (TimeOut.fromInt m) = true) := by
  refine ⟨fun n => ⟨?_, ?_, ?_, ?_⟩, fun n => ⟨?_, ?_, ?_, ?_⟩, fun m hm => ⟨?_, ?_, ?_⟩⟩ <;>
    simp only [MaxEvents.fromUsize, MaxEvents.in_range, MaxEvents.MIN, MaxEvents.MAX,
      MaxEvents.DEFAULT, ReadSize.fromUsize, ReadSize.in_range, ReadSize.MIN,
      ReadSize.MAX, ReadSize.DEFAULT, TimeOut.fromInt, TimeOut.in_range,
      TimeOut.INFINITE, TimeOut.MAX, TimeOut.DEFAULT, USIZE_MAX, C_INT_MAX,
      Bool.and_eq_true, decide_eq_true_eq] at * <;>
    split_ifs <;> first | rfl | omega

/-- C7: for each bounded-config type the strict constructor new succeeds
exactly when MIN ≤ n ≤ MAX for that type (for TimeOut the minimum is
INFINITE = -1), returns the exact input on success, and returns the
rejected input unchanged in the error otherwise. -/
theorem c7_bounded_new_iff :
    (∀ n : Nat,
      ((MaxEvents.new n).isOk = true ↔ (MaxEvents.MIN ≤ n ∧ n ≤ MaxEvents.MAX)) ∧
      (MaxEvents.MIN ≤ n → n ≤ MaxEvents.MAX → MaxEvents.new n = Except.ok n) ∧
      (¬(MaxEvents.MIN ≤ n ∧ n ≤ MaxEvents.MAX) → MaxEvents.new n = Except.error n)) ∧
    (∀ n : Nat,
      ((ReadSize.new n).isOk = true ↔ (ReadSize.MIN ≤ n ∧ n ≤ ReadSize.MAX)) ∧
      (ReadSize.MIN ≤ n → n ≤ ReadSize.MAX → ReadSize.new n = Except.ok n) ∧
      (¬(ReadSize.MIN ≤ n ∧ n ≤ ReadSize.MAX) → ReadSize.new n = Except.error n)) ∧
    (∀ m : Int,
      ((TimeOut.new m).isOk = true ↔ (TimeOut.INFINITE ≤ m ∧ m ≤ TimeOut.MAX)) ∧
      (TimeOut.INFINITE ≤ m → m ≤ TimeOut.MAX → TimeOut.new m = Except.ok m) ∧
      (¬(TimeOut.INFINITE ≤ m ∧ m ≤ TimeOut.MAX) → TimeOut.new m = Except.error m)) := by
  refine ⟨fun n => ⟨?_, ?_, ?_⟩, fun n => ⟨?_, ?_, ?_⟩, fun m => ⟨?_, ?_, ?_⟩⟩ <;>
    simp only [MaxEvents.new, MaxEvents.in_range, ReadSize.new, ReadSize.in_range,
      TimeOut.new, TimeOut.in_range, Bool.and_eq_true, decide_eq_true_eq] <;>
    split_ifs <;>
    simp_all [Except.isOk, Except.toBool]

/-- C7 witness: MaxEvents::new accepts 64 and rejects 0 unchanged. -/
theorem c7_bounded_new_iff_witness :
    MaxEvents.new 64 = Except.ok 64 ∧ MaxEvents.new 0 = Except.error 0 :=
  ⟨(c7_bounded_new_iff.1 64).2.1 (by decide) (by decide),
   (c7_bounded_new_iff.1 0).2.2 (by decide)⟩

/-- C6 witness: below-range inputs clamp to the defaults, above-range
inputs clamp to MAX, in-range inputs pass through. -/
theorem c6_bounded_from_clamps_witness :
    MaxEvents.fromUsize 0 = MaxEvents.DEFAULT ∧
    MaxEvents.fromUsize 5000000000 = MaxEvents.MAX ∧
    TimeOut.fromInt (-5) = TimeOut.DEFAULT ∧
    ReadSize.fromUsize 10 = 10 :=
  ⟨(c6_bounded_from_clamps.1 0).1 (by decide),
   (c6_bounded_from_clamps.1 5000000000).2.1 (by decide),
   (c6_bounded_from_clamps.2.2 (-5) (by decide)).1 (by decide),
   (c6_bounded_from_clamps.2.1 10).2.2.1 (by decide) (by decide)⟩

/-- C9: a successful wait returns exactly the records the kernel wrote,
whose count k is the value the syscall returned, with k never exceeding
the buffer capacity that was passed to the syscall. -/
theorem c9_wait_returns_syscall_count {τ : Type} (e : EPoll τ) (pending : List (Event τ)) :
    EPoll.wait e pending false = Except.ok (epollWaitSys pending e.bufferCap).2 ∧
    (epollWaitSys pending e.bufferCap).2.length = (epollWaitSys pending e.bufferCap).1 ∧
    (epollWaitSys pending e.bufferCap).1 ≤ e.bufferCap := by
  refine ⟨?_, ?_, ?_⟩
  · simp only [EPoll.wait, epollWaitSys, if_neg (Bool.false_ne_true ∘ id)]
    simp [List.take_take, Nat.min_comm, Nat.min_assoc, Nat.min_self]
  · simp [epollWaitSys, List.length_take, Nat.min_comm]
  · simp [epollWaitSys]

/-- C10: EPoll::close hands back the complete mirror map whether or not
the close syscall succeeds; the error result and the returned map are
independent. -/
theorem c10_close_returns_mirror {τ : Type} (e : EPoll τ) (kOk : Bool) :
    (EPoll.close e kOk).2 = Api.getDatas e.api ∧
    (EPoll.close e true).1 = Except.ok () ∧
    (EPoll.close e false).1 = Except.error ErrKind.osError := by
  simp [EPoll.close, Api.getDatas]

/-- C3: evaluation at the failing input. An accumulator that is full at
4096 bytes (capacity 4096, zero spare capacity) with chunk size 4096:
the current drain loop (src/utils/mod.rs) compares the TOTAL capacity
against the chunk size, so it performs no growth at all and attempts the
read with zero spare capacity, while the older src/utils.rs step, which
compares the spare capacity, grows the capacity by 4096. -/
theorem c3_growth_skipped_when_buffer_full :
    growStep ⟨List.replicate 4096 0, 4096⟩ 4096 = ⟨List.replicate 4096 0, 4096⟩ ∧
    (⟨List.replicate 4096 0, 4096⟩ : VecU8).cap -
      (⟨List.replicate 4096 0, 4096⟩ : VecU8).data.length = 0 ∧
    (growStepSpare ⟨List.replicate 4096 0, 4096⟩ 4096).cap = 4096 + 4096 := by
  refine ⟨?_, ?_, ?_⟩
  · exact growStep_no_grow _ 4096 (by simp)
  · simp only [List.length_replicate]
  · rw [growStepSpare_cap_of_full _ 4096 (by simp only [List.length_replicate]) (by norm_num)]
    simp only [List.length_replicate]
    decide

/-- C4: starting from a table where descriptor fd is unregistered, a
successful add stores the token so that a lookup of fd yields it; a
second add on the same descriptor fails with AlreadyExists (whatever the
kernel would have answered), changes nothing, and the first token stays
in the mirror. -/
theorem c4_add_then_get {τ : Type} (a : Api τ) (fd : Int) (ev : Event τ)
    (h : lookupFd a.datas fd = none) :
    (Api.add a fd ev true).1 = Except.ok ev.data ∧
    Api.getDataMut (Api.add a fd ev true).2.1 fd = some ev.data ∧
    (∀ ev2 kOk,
      (Api.add (Api.add a fd ev true).2.1 fd ev2 kOk).1 =
        Except.error ErrKind.alreadyExists ∧
      (Api.add (Api.add a fd ev true).2.1 fd ev2 kOk).2.1 = (Api.add a fd ev true).2.1 ∧
      Api.getDataMut (Api.add (Api.add a fd ev true).2.1 fd ev2 kOk).2.1 fd =
        some ev.data) := by
  simp [Api.add, Api.getDataMut, lookupFd, h]

/-- C4 witness at a concrete table: add 3 with token 7 to the empty
table, look it up, then fail to add 3 again. -/
theorem c4_add_then_get_witness :
    (Api.add (⟨0, []⟩ : Api Nat) 3 ⟨1, 7⟩ true).1 = Except.ok 7 ∧
    Api.getDataMut (Api.add (⟨0, []⟩ : Api Nat) 3 ⟨1, 7⟩ true).2.1 3 = some 7 ∧
    (Api.add (Api.add (⟨0, []⟩ : Api Nat) 3 ⟨1, 7⟩ true).2.1 3 ⟨4, 9⟩ true).1 =
      Except.error ErrKind.alreadyExists := by
  have spec := c4_add_then_get (⟨0, []⟩ : Api Nat) 3 ⟨1, 7⟩ rfl
  exact ⟨spec.1, spec.2.1, (spec.2.2 ⟨4, 9⟩ true).1⟩

/-- C5: on a descriptor absent from the mirror, mod_flags and del fail
with NotFound, issue no kernel control call, and leave the table (hence
the mirror map) unchanged. -/
theorem c5_absent_notFound {τ : Type} (a : Api τ) (cap : Nat) (fd : Int)
    (h : lookupFd a.datas fd = none) :
    (∀ f kOk, Api.modFlags a fd f kOk = (Except.error ErrKind.notFound, a, [])) ∧
    (∀ kOk, EPoll.del ⟨a, cap⟩ fd kOk = (Except.error ErrKind.notFound, ⟨a, cap⟩, [])) := by
  constructor
  · intro f kOk
    simp [Api.modFlags, h]
  · intro kOk
    simp [EPoll.del, h]

/-- C5 witness: a table holding only descriptor 3 rejects mod_flags and
del on descriptor 5 with NotFound, unchanged and with no kernel call. -/
theorem c5_absent_notFound_witness :
    Api.modFlags (⟨0, [(3, 7)]⟩ : Api Nat) 5 2 true =
      (Except.error ErrKind.notFound, ⟨0, [(3, 7)]⟩, []) ∧
    EPoll.del (⟨⟨0, [(3, 7)]⟩, 8⟩ : EPoll Nat) 5 true =
      (Except.error ErrKind.notFound, ⟨⟨0, [(3, 7)]⟩, 8⟩, []) := by
  have spec := c5_absent_notFound (⟨0, [(3, 7)]⟩ : Api Nat) 8 5 rfl
  exact ⟨spec.1 2 true, spec.2 true⟩

/-- C8: on a registered descriptor, mod_flags issues exactly one kernel
modify call carrying the token currently stored in the mirror together
with the new flags, and a successful call leaves every mirror entry (the
token of fd included) exactly as before. -/
theorem c8_modFlags_keeps_tokens {τ : Type} (a : Api τ) (fd : Int) (d : τ) (f : Nat)
    (h : lookupFd a.datas fd = some d) :
    (∀ kOk, (Api.modFlags a fd f kOk).2.2 = [⟨CtlOp.ctlMod, fd, some f, some d⟩]) ∧
    (Api.modFlags a fd f true).1 = Except.ok () ∧
    (Api.modFlags a fd f true).2.1 = a := by
  refine ⟨fun kOk => ?_, ?_, ?_⟩
  · cases kOk <;> simp [Api.modFlags, h]
  · simp [Api.modFlags, h]
  · simp [Api.modFlags, h]

/-- C8 witness: mod_flags on descriptor 3 of a table storing token 7
issues the modify call with token 7 and the new flags 2, and the mirror
is untouched. -/
theorem c8_modFlags_keeps_tokens_witness :
    (Api.modFlags (⟨0, [(3, 7)]⟩ : Api Nat) 3 2 true).2.2 =
      [⟨CtlOp.ctlMod, 3, some 2, some 7⟩] ∧
    (Api.modFlags (⟨0, [(3, 7)]⟩ : Api Nat) 3 2 true).2.1 = ⟨0, [(3, 7)]⟩ := by
  have spec := c8_modFlags_keeps_tokens (⟨0, [(3, 7)]⟩ : Api Nat) 3 7 2 rfl
  exact ⟨spec.1 true, spec.2.2⟩

/-- C1: assuming the mirror key set currently equals the kernel-side
registration set, each of add, mod_flags and del (a) leaves the mirror
map exactly unchanged whenever it returns an error — registration
conflict or kernel failure alike — and (b) re-establishes the key-set
equality between the mirror and the kernel registration set resulting
from the calls it issued, whether the kernel call succeeded or failed,
so mirror updates happen exactly on kernel success. -/
theorem c1_mirror_kernel_sync {τ : Type} (a : Api τ) (regs : List Int)
    (hsync : ∀ x, (lookupFd a.datas x).isSome = true ↔ x ∈ regs) :
    (∀ fd ev kOk,
      (∀ ek, (Api.add a fd ev kOk).1 = Except.error ek →
        (Api.add a fd ev kOk).2.1.datas = a.datas) ∧
      (∀ x, (lookupFd (Api.add a fd ev kOk).2.1.datas x).isSome = true ↔
        x ∈ kernelRun regs (Api.add a fd ev kOk).2.2 kOk)) ∧
    (∀ fd f kOk,
      (∀ ek, (Api.modFlags a fd f kOk).1 = Except.error ek →
        (Api.modFlags a fd f kOk).2.1.datas = a.datas) ∧
      (∀ x, (lookupFd (Api.modFlags a fd f kOk).2.1.datas x).isSome = true ↔
        x ∈ kernelRun regs (Api.modFlags a fd f kOk).2.2 kOk)) ∧
    (∀ cap fd kOk,
      (∀ ek, (EPoll.del ⟨a, cap⟩ fd kOk).1 = Except.error ek →
        (EPoll.del ⟨a, cap⟩ fd kOk).2.1.api.datas = a.datas) ∧
      (∀ x, (lookupFd (EPoll.del ⟨a, cap⟩ fd kOk).2.1.api.datas x).isSome = true ↔
        x ∈ kernelRun regs (EPoll.del ⟨a, cap⟩ fd kOk).2.2 kOk)) := by
  refine ⟨fun fd ev kOk => ?_, fun fd f kOk => ?_, fun cap fd kOk => ?_⟩
  · cases hl : lookupFd a.datas fd with
    | some d =>
      cases kOk <;>
        simp only [Api.add, hl, kernelRun, List.foldl_nil, if_true, if_false] <;>
        exact ⟨fun ek _ => by trivial, hsync⟩
    | none =>
      cases kOk
      · simp only [Api.add, hl, kernelRun, if_false]
        exact ⟨fun ek _ => by trivial, hsync⟩
      · simp only [Api.add, hl, kernelRun, if_true, List.foldl_cons, List.foldl_nil,
          kernelStep]
        refine ⟨fun ek hek => absurd hek (by simp), fun x => ?_⟩
        simp only [lookupFd, List.mem_cons]
        by_cases hx : fd = x
        · simp [hx]
        · simp only [hx, if_false, hsync x]
          constructor
          · exact fun hm => Or.inr hm
          · rintro (h1 | h1)
            · exact absurd h1.symm hx
            · exact h1
  · cases hl : lookupFd a.datas fd with
    | some d =>
      cases kOk <;>
        simp only [Api.modFlags, hl, kernelRun, List.foldl_cons, List.foldl_nil,
          kernelStep, if_true, if_false] <;>
        exact ⟨fun ek _ => by trivial, hsync⟩
    | none =>
      cases kOk <;>
        simp only [Api.modFlags, hl, kernelRun, List.foldl_nil, if_true, if_false] <;>
        exact ⟨fun ek _ => by trivial, hsync⟩
  · cases hl : lookupFd a.datas fd with
    | some d =>
      cases kOk
      · simp only [EPoll.del, hl, kernelRun, if_false]
        exact ⟨fun ek _ => by trivial, hsync⟩
      · simp only [EPoll.del, hl, kernelRun, if_true, List.foldl_cons, List.foldl_nil,
          kernelStep]
        refine ⟨fun ek hek => absurd hek (by simp), fun x => ?_⟩
        rw [lookupFd_eraseFd, List.mem_filter]
        by_cases hx : x = fd
        · simp [hx]
        · simp only [hx, if_false, hsync x, decide_eq_true_eq]
          constructor
          · exact fun hm => ⟨hm, hx⟩
          · exact fun hm => hm.1
    | none =>
      cases kOk <;>
        simp only [EPoll.del, hl, kernelRun, List.foldl_nil, if_true, if_false] <;>
        exact ⟨fun ek _ => by trivial, hsync⟩

/-- C1 witness: from the empty table in sync with an empty kernel set, a
successful add of descriptor 5 keeps the mirror and the kernel set in
sync at descriptor 5. -/
theorem c1_mirror_kernel_sync_witness :
    (lookupFd (Api.add (⟨0, []⟩ : Api Nat) 5 ⟨1, 2⟩ true).2.1.datas 5).isSome = true ↔
      5 ∈ kernelRun [] (Api.add (⟨0, []⟩ : Api Nat) 5 ⟨1, 2⟩ true).2.2 true :=
  ((c1_mirror_kernel_sync (⟨0, []⟩ : Api Nat) []
    (fun x => by simp [lookupFd])).1 5 ⟨1, 2⟩ true).2 5

/-- C2: a run of read_until_wouldblock that terminates with EndOfFile(n)
or WouldBlock(n) appended exactly n bytes to the accumulator — the bytes
the reads produced — and the Error variant never carries WouldBlock (nor
arises from a zero-byte read); moreover a zero-byte read terminates the
loop with EndOfFile of the running total, a would-block error with
WouldBlock of the running total, and any other error with Error. -/
theorem c2_drain_outcomes :
    (∀ (reads : List ReadResult) (out : VecU8) (rs : Nat) (st : State) (out2 : VecU8),
      readUntilWouldblock reads out rs 0 = some (st, out2) →
      (∀ n, st = State.EndOfFile n ∨ st = State.WouldBlock n →
        out2.data = out.data ++ okBytes reads ∧
        out2.data.length = out.data.length + n) ∧
      (∀ e, st = State.Error e → e ≠ ErrKind.wouldBlock)) ∧
    (∀ (rest : List ReadResult) (out : VecU8) (rs total : Nat),
      readUntilWouldblock (ReadResult.ok [] :: rest) out rs total =
        some (State.EndOfFile total, growStep out rs)) ∧
    (∀ (rest : List ReadResult) (out : VecU8) (rs total : Nat),
      readUntilWouldblock (ReadResult.err ErrKind.wouldBlock :: rest) out rs total =
        some (State.WouldBlock total, growStep out rs)) ∧
    (∀ (e : ErrKind) (rest : List ReadResult) (out : VecU8) (rs total : Nat),
      e ≠ ErrKind.wouldBlock →
      readUntilWouldblock (ReadResult.err e :: rest) out rs total =
        some (State.Error e, growStep out rs)) := by
  refine ⟨?_, ?_, ?_, ?_⟩
  · intro reads out rs st out2 h
    have spec := readUntil_run_spec reads out rs 0 st out2 h
    refine ⟨fun n hn => ?_, spec.2.2.2⟩
    have hlen : n = (okBytes reads).length := by
      rcases hn with hn | hn
      · have := spec.2.1 n hn
        omega
      · have := spec.2.2.1 n hn
        omega
    refine ⟨spec.1, ?_⟩
    rw [spec.1, List.length_append, hlen]
  · intro rest out rs total
    simp [readUntilWouldblock]
  · intro rest out rs total
    simp [readUntilWouldblock]
  · intro e rest out rs total he
    simp [readUntilWouldblock, he]

/-- C2 witness: a reader that yields two bytes and then signals
would-block makes the drain loop report WouldBlock 2, with the two bytes
appended to the empty accumulator. -/
theorem c2_drain_outcomes_witness :
    (⟨[1, 2], 8⟩ : VecU8).data = (⟨[], 0⟩ : VecU8).data ++
      okBytes [ReadResult.ok [1, 2], ReadResult.err ErrKind.wouldBlock] ∧
    (⟨[1, 2], 8⟩ : VecU8).data.length = (⟨[], 0⟩ : VecU8).data.length + 2 :=
  (c2_drain_outcomes.1 [ReadResult.ok [1, 2], ReadResult.err ErrKind.wouldBlock]
    ⟨[], 0⟩ 2 (State.WouldBlock 2) ⟨[1, 2], 8⟩ rfl).1 2 (Or.inr rfl)

end EpollApi
